import Mathlib

/-!
# gemini-openai-proxy: SSE encoder, error normaliser and HTTP handlers

A shallow embedding of `pkg/adapter/event.go` and `api/handler.go`.

Conventions of the embedding:

* A Go `string` is a sequence of characters (`GoString`).  The replacer of
  `event.go` works on single bytes; its two patterns (`\n`, `\r`) and the
  token `data` are ASCII, so on UTF-8 text replacing bytes and replacing
  characters coincide.
* An `io.Writer` is an in-memory sink that accepts every write; the bytes
  written so far are its state.
* A call of gin's `c.JSON` / `c.AbortWithStatusJSON` is recorded as the pair
  of its arguments (status code, body object).
-/

namespace GeminiProxy

/-- A Go `string`. -/
abbrev GoString := List Char

/-! ## Go standard library: `strings.Replacer` with single-byte patterns -/

/-- The replacer `strings.NewReplacer` builds when every old string is one
byte long: a table from a byte to its replacement (`nil` when absent). -/
structure byteStringReplacer where
  replacements : Char → Option GoString

/-- Table construction of `strings.NewReplacer`: the pairs are entered from the
last one to the first one, so the first pair for a byte takes precedence. -/
def NewReplacer : List (Char × GoString) → byteStringReplacer
  | [] => ⟨fun _ => none⟩
  | (o, n) :: rest =>
    let r := NewReplacer rest
    ⟨fun b => if b = o then some n else r.replacements b⟩

/-- An `http.ResponseWriter`: the header map and the bytes written to the body. -/
structure ResponseWriter where
  header : List (GoString × List GoString)
  body : GoString
deriving DecidableEq

/-- The call `w.Write(p)`: the sink appends `p`. -/
def ResponseWriter.Write (w : ResponseWriter) (p : GoString) : ResponseWriter :=
  { w with body := w.body ++ p }

/-- The type `stringWrapper` of `event.go`: an `io.Writer` seen as a `stringWriter`. -/
structure stringWrapper where
  Writer : ResponseWriter
deriving DecidableEq

/-- Method `stringWrapper.writeString`: `w.Writer.Write([]byte(str))`. -/
def stringWrapper.writeString (w : stringWrapper) (str : GoString) : stringWrapper :=
  ⟨w.Writer.Write str⟩

/-- Function `checkWriter`.  No `http.ResponseWriter` has the unexported method
`writeString`, so the writer is always wrapped. -/
def checkWriter (writer : ResponseWriter) : stringWrapper := ⟨writer⟩

/-- Loop of `byteStringReplacer.WriteString`: `pending` is the slice
`s[last:i]` of bytes seen since the last replacement and not yet written. -/
def byteStringReplacer.writeLoop (r : byteStringReplacer) :
    stringWrapper → GoString → GoString → stringWrapper
  | w, pending, [] => if pending ≠ [] then w.writeString pending else w
  | w, pending, b :: rest =>
    match r.replacements b with
    | none => r.writeLoop w (pending ++ [b]) rest
    | some n =>
      let w1 := if pending ≠ [] then w.writeString pending else w
      r.writeLoop (w1.writeString n) [] rest

/-- Method `byteStringReplacer.WriteString(w, s)`. -/
def byteStringReplacer.WriteString (r : byteStringReplacer) (w : stringWrapper)
    (s : GoString) : stringWrapper :=
  r.writeLoop w [] s

/-! ## `pkg/adapter/event.go` -/

/-- Header value `contentType`. -/
def contentType : List GoString := ["text/event-stream".toList]

/-- Header value `noCache`. -/
def noCache : List GoString := ["no-cache".toList]

/-- The package variable `dataReplacer`. -/
def dataReplacer : byteStringReplacer :=
  NewReplacer [('\n', ['\n', 'd', 'a', 't', 'a', ':']), ('\r', ['\\', 'r'])]

/-- An SSE event; the handlers only build events whose `Data` is a string. -/
structure Event where
  Data : GoString
deriving DecidableEq

/-- Go's `strings.HasPrefix`. -/
def HasPrefix (s pre : GoString) : Bool := pre.isPrefixOf s

/-- Function `writeData`: the replaced payload, then a blank line when the
payload begins with `data`.  The returned error is always `nil` (`none`). -/
def writeData (w : stringWrapper) (data : GoString) : stringWrapper × Option GoString :=
  let w1 := dataReplacer.WriteString w data
  let w2 := if HasPrefix data ['d', 'a', 't', 'a'] then w1.writeString ['\n', '\n'] else w1
  (w2, none)

/-- Function `encode`. -/
def encode (writer : ResponseWriter) (event : Event) : ResponseWriter × Option GoString :=
  let w := checkWriter writer
  let r := writeData w event.Data
  (r.1.Writer, r.2)

/-- Assignment `header[k] = v` on a header map. -/
def setHeader (h : List (GoString × List GoString)) (k : GoString) (v : List GoString) :
    List (GoString × List GoString) :=
  (k, v) :: h.filter (fun kv => kv.1 ≠ k)

/-- Method `Event.WriteContentType`. -/
def Event.WriteContentType (_r : Event) (w : ResponseWriter) : ResponseWriter :=
  let header := setHeader w.header "Content-Type".toList contentType
  let header :=
    if (header.lookup "Cache-Control".toList).isSome then header
    else setHeader header "Cache-Control".toList noCache
  { w with header := header }

/-- Method `Event.Render`. -/
def Event.Render (r : Event) (w : ResponseWriter) : ResponseWriter × Option GoString :=
  encode (r.WriteContentType w) r

/-! ## Go values used by the handlers -/

/-- A Go value of interface type `any`, as far as the handlers tell values
apart: `nil`, an `int`, or a value of another dynamic type (here a string). -/
inductive GoAny where
  | nil
  | int (n : Int)
  | string (s : GoString)
deriving DecidableEq

/-- Type `openai.APIError` of go-openai.  `Code` has type `any`;
`HTTPStatusCode` is not serialised (`json:"-"`). -/
structure APIError where
  Code : GoAny
  Message : GoString
  Param : Option GoString
  Type_ : GoString
  HTTPStatusCode : Int
deriving DecidableEq

/-- Type `googleapi.Error`: the fields the handler reads. -/
structure GoogleapiError where
  Code : Int
  Message : GoString
deriving DecidableEq

/-- The dynamic type of one error of an `Unwrap` chain, as `errors.As` sees it. -/
inductive ErrorShape where
  | openai (e : APIError)
  | googleapi (e : GoogleapiError)
  | plain
deriving DecidableEq

/-- One error of a chain: its dynamic type and the string its `Error()` returns. -/
structure ErrorNode where
  shape : ErrorShape
  description : GoString
deriving DecidableEq

/-- A non-nil Go `error`: the value itself and the errors that successive
calls of `Unwrap` return.  (`*openai.APIError` has no `Unwrap`, so in Go it can
only end a chain; `*googleapi.Error` has one.) -/
structure GoError where
  head : ErrorNode
  wrapped : List ErrorNode
deriving DecidableEq

/-- The `Unwrap` chain, the error itself first. -/
def GoError.chain (err : GoError) : List ErrorNode := err.head :: err.wrapped

/-- Method `Error()` of the error value. -/
def GoError.Error (err : GoError) : GoString := err.head.description

/-- The call `errors.New(text)`. -/
def errorsNew (text : GoString) : GoError := ⟨⟨.plain, text⟩, []⟩

/-- The call `errors.As(err, &target)` with `target` of type `*openai.APIError`:
the first error of the chain with that type. -/
def asAPIError : List ErrorNode → Option APIError
  | [] => none
  | n :: rest =>
    match n.shape with
    | .openai e => some e
    | _ => asAPIError rest

/-- The call `errors.As(err, &target)` with `target` of type `*googleapi.Error`. -/
def asGoogleapiError : List ErrorNode → Option GoogleapiError
  | [] => none
  | n :: rest =>
    match n.shape with
    | .googleapi e => some e
    | _ => asGoogleapiError rest

/-! ## gin: the request context -/

/-- Type `genai.ModelInfo`: the name and one of the further fields. -/
structure ModelInfo where
  Name : GoString
  DisplayName : GoString
deriving DecidableEq

/-- Type `openai.Model`: the fields the handlers set. -/
structure Model where
  ID : GoString
  Object : GoString
  OwnedBy : GoString
deriving DecidableEq

/-- The object given to `c.JSON` or `c.AbortWithStatusJSON`. -/
inductive Body where
  | apiError (e : APIError)
  | H (fields : List (GoString × GoString))
  | modelList (object : GoString) (data : List Model)
  | model (m : Model)
  | adapterResponse (json : GoString)
deriving DecidableEq

/-- A JSON response: the arguments of `c.JSON`. -/
structure Response where
  status : Int
  body : Body
deriving DecidableEq

/-- The part of `gin.Context` the handlers act on: the response writer, the
JSON responses rendered so far, and the abort flag. -/
structure Context where
  Writer : ResponseWriter
  responses : List Response
  aborted : Bool
deriving DecidableEq

/-- A fresh context, as gin hands it to a handler. -/
def Context.fresh : Context := ⟨⟨[], []⟩, [], false⟩

/-- Method `c.JSON(code, obj)`. -/
def Context.JSON (c : Context) (code : Int) (obj : Body) : Context :=
  { c with responses := c.responses ++ [⟨code, obj⟩] }

/-- Method `c.AbortWithStatusJSON(code, obj)`: `c.Abort()` then `c.JSON(code, obj)`. -/
def Context.AbortWithStatusJSON (c : Context) (code : Int) (obj : Body) : Context :=
  ({ c with aborted := true }).JSON code obj

/-- Method `c.Render(-1, event)`: the status `-1` leaves the status alone and
the event is rendered on `c.Writer` (its error is always `nil`). -/
def Context.Render (c : Context) (r : Event) : Context :=
  { c with Writer := (r.Render c.Writer).1 }

/-- Method `c.Stream(step)` of gin: `step` is called until it returns `false`
or the client is gone.  `clientGone k` tells whether the close notification
has arrived when iteration `k` starts; `fuel` bounds the number of iterations
(`none`: the bound was reached). -/
def Stream {σ : Type} (clientGone : Nat → Bool) (step : σ → σ × Bool) :
    Nat → Nat → σ → Option σ
  | 0, _, _ => none
  | fuel + 1, k, s =>
    if clientGone k then some s
    else
      let r := step s
      if r.2 then Stream clientGone step fuel (k + 1) r.1 else some r.1

/-! ## Go standard library: `fmt.Sscanf(header, "Bearer %s", &key)` -/

/-- Function `isSpace` of package `fmt`. -/
def isSpace (r : Char) : Bool :=
  let n := r.toNat
  (0x0009 ≤ n && n ≤ 0x000d) || n == 0x0020 || n == 0x0085 || n == 0x00a0 || n == 0x1680
    || (0x2000 ≤ n && n ≤ 0x200a) || (0x2028 ≤ n && n ≤ 0x2029) || n == 0x202f
    || n == 0x205f || n == 0x3000

/-- The literal text of the format: each rune must be read and be equal. -/
def scanLiteral : GoString → GoString → Except GoError GoString
  | [], input => .ok input
  | _ :: _, [] => .error (errorsNew "unexpected EOF".toList)
  | f :: fs, c :: cs =>
    if f = c then scanLiteral fs cs
    else .error (errorsNew "input does not match format".toList)

/-- A space of the format that follows no newline: one or more spaces of the
input, or its end. -/
def scanFormatSpace : GoString → Except GoError GoString
  | [] => .ok []
  | c :: cs =>
    if !isSpace c then .error (errorsNew "expected space in input to match format".toList)
    else if c = '\n' then .error (errorsNew "newline in input does not match format".toList)
    else .ok (cs.dropWhile fun r => isSpace r && r != '\n')

/-- Method `SkipSpace` of the scanner, newlines not being spaces. -/
def SkipSpace : GoString → Except GoError GoString
  | [] => .ok []
  | r :: rest =>
    if r = '\r' && rest.head? = some '\n' then SkipSpace rest
    else if r = '\n' then .error (errorsNew "unexpected newline".toList)
    else if !isSpace r then .ok (r :: rest)
    else SkipSpace rest

/-- Verb `%s`: leading spaces are skipped, the input must not be at its end,
and the token runs up to the next space. -/
def scanString (input : GoString) : Except GoError GoString :=
  match SkipSpace input with
  | .error e => .error e
  | .ok rest =>
    match SkipSpace rest with
    | .error e => .error e
    | .ok [] => .error (errorsNew "unexpected EOF".toList)
    | .ok (c :: cs) => .ok ((c :: cs).takeWhile fun r => !isSpace r)

/-- The call `fmt.Sscanf(authorizationHeader, "Bearer %s", &openaiAPIKey)`: the
key on success, the error otherwise. -/
def SscanfBearer (authorizationHeader : GoString) : Except GoError GoString :=
  match scanLiteral "Bearer".toList authorizationHeader with
  | .error e => .error e
  | .ok rest =>
    match scanFormatSpace rest with
    | .error e => .error e
    | .ok rest => scanString rest

/-! ## Collaborators of the handlers (declared outside `api/handler.go`) -/

/-- Type `genai.Content`, opaque to the handlers. -/
structure Content where
  Role : GoString
  Parts : List GoString
deriving DecidableEq

/-- Type `adapter.ChatCompletionRequest`: the fields the handler reads, and the
messages. -/
structure ChatCompletionRequest where
  Model : GoString
  Stream : Bool
  Messages : List (GoString × GoString)
deriving DecidableEq

/-- Type `adapter.EmbeddingRequest`. -/
structure EmbeddingRequest where
  Model : GoString
  Messages : List GoString
deriving DecidableEq

/-- What a handler reads of the HTTP request: the `Authorization` header (empty
when absent), the route parameter `model`, and the body. -/
structure Request where
  Authorization : GoString
  model : GoString
  body : GoString
deriving DecidableEq

/-- The functions the handlers call and that live in other packages: JSON
binding, request translation, the backend client, and the close notification
of the connection.  `ListModels key` is the sequence of results of `iter.Next()`
before `iterator.Done`; `GenerateStreamContent` returns the chunks the relay
channel delivers before it is closed. -/
structure Collaborators where
  ShouldBindChat : GoString → Except GoError ChatCompletionRequest
  ChatToGenaiMessages : ChatCompletionRequest → Except GoError (List Content)
  ShouldBindEmbedding : GoString → Except GoError EmbeddingRequest
  EmbeddingToGenaiMessages : EmbeddingRequest → Except GoError (List Content)
  NewClient : GoString → Option GoError
  ListModels : GoString → List (Except GoError ModelInfo)
  GenerateContent :
    GoString → ChatCompletionRequest → List Content → Except GoError GoString
  GenerateStreamContent :
    GoString → ChatCompletionRequest → List Content → Except GoError (List GoString)
  GenerateEmbedding : GoString → GoString → List Content → Except GoError GoString
  clientGone : Nat → Bool

/-- The state a handler acts on: the gin context, the API keys `genai.NewClient`
was called with, and the number of `client.Close()` calls. -/
structure HandlerState where
  c : Context
  newClientCalls : List GoString
  closeCalls : Nat
deriving DecidableEq

/-- The state when a handler starts. -/
def HandlerState.fresh : HandlerState := ⟨Context.fresh, [], 0⟩

/-! ## `api/handler.go` -/

/-- Constant `http.StatusOK`. -/
def StatusOK : Int := 200
/-- Constant `http.StatusBadRequest`. -/
def StatusBadRequest : Int := 400
/-- Constant `http.StatusNotFound`. -/
def StatusNotFound : Int := 404
/-- Constant `http.StatusTooManyRequests`. -/
def StatusTooManyRequests : Int := 429
/-- Constant `http.StatusInternalServerError`. -/
def StatusInternalServerError : Int := 500

/-- Function `handleGenerateContentError`. -/
def handleGenerateContentError (c : Context) (err : GoError) : Context :=
  -- Try OpenAI API error first
  match asAPIError err.chain with
  | some openaiErr =>
    let statusCode :=
      match openaiErr.Code with
      | .int code => code
      | _ => StatusInternalServerError
    c.AbortWithStatusJSON statusCode (.apiError openaiErr)
  | none =>
    -- Try googleapi.Error
    match asGoogleapiError err.chain with
    | some googleapiErr =>
      let statusCode := googleapiErr.Code
      if statusCode = StatusTooManyRequests then
        c.AbortWithStatusJSON StatusTooManyRequests (.apiError
          { Code := .int StatusTooManyRequests
            Message := "Rate limit exceeded".toList
            Param := none
            Type_ := "rate_limit_error".toList
            HTTPStatusCode := 0 })
      else
        c.AbortWithStatusJSON statusCode (.apiError
          { Code := .int statusCode
            Message := googleapiErr.Message
            Param := none
            Type_ := "server_error".toList
            HTTPStatusCode := 0 })
    | none =>
      -- For all other errors
      c.AbortWithStatusJSON StatusInternalServerError (.apiError
        { Code := .int StatusInternalServerError
          Message := err.Error
          Param := none
          Type_ := "server_error".toList
          HTTPStatusCode := 0 })

/-- The body `openai.APIError{Code: http.StatusBadRequest, Message: err.Error()}`. -/
def badRequest (err : GoError) : Body :=
  .apiError
    { Code := .int StatusBadRequest
      Message := err.Error
      Param := none
      Type_ := []
      HTTPStatusCode := 0 }

/-- Loop of `ModelListHandler` over the model iterator. -/
def modelListLoop : List (Except GoError ModelInfo) → List Model → Except GoError (List Model)
  | [], modelList => .ok modelList
  | .error err :: _, _ => .error err
  | .ok modelInfo :: rest, modelList =>
    modelListLoop rest
      (modelList ++ [{ ID := modelInfo.Name, Object := "model".toList, OwnedBy := "google".toList }])

/-- Function `ModelListHandler`. -/
def ModelListHandler (env : Collaborators) (req : Request) (st : HandlerState) : HandlerState :=
  match SscanfBearer req.Authorization with
  | .error err => { st with c := handleGenerateContentError st.c err }
  | .ok openaiAPIKey =>
    let st := { st with newClientCalls := st.newClientCalls ++ [openaiAPIKey] }
    match env.NewClient openaiAPIKey with
    | some err => { st with c := handleGenerateContentError st.c err }
    | none =>
      let st := { st with closeCalls := st.closeCalls + 1 }
      match modelListLoop (env.ListModels openaiAPIKey) [] with
      | .error err => { st with c := handleGenerateContentError st.c err }
      | .ok modelList => { st with c := st.c.JSON StatusOK (.modelList "list".toList modelList) }

/-- Loop of `ModelRetrieveHandler` over the model iterator: the first model
whose name is the requested one, `nil` when the iterator is done before. -/
def modelFindLoop (modelID : GoString) :
    List (Except GoError ModelInfo) → Except GoError (Option ModelInfo)
  | [] => .ok none
  | .error err :: _ => .error err
  | .ok modelInfo :: rest =>
    if modelInfo.Name = modelID then .ok (some modelInfo) else modelFindLoop modelID rest

/-- Function `ModelRetrieveHandler`. -/
def ModelRetrieveHandler (env : Collaborators) (req : Request) (st : HandlerState) :
    HandlerState :=
  let modelID := req.model
  match SscanfBearer req.Authorization with
  | .error err => { st with c := handleGenerateContentError st.c err }
  | .ok openaiAPIKey =>
    let st := { st with newClientCalls := st.newClientCalls ++ [openaiAPIKey] }
    match env.NewClient openaiAPIKey with
    | some err => { st with c := handleGenerateContentError st.c err }
    | none =>
      let st := { st with closeCalls := st.closeCalls + 1 }
      match modelFindLoop modelID (env.ListModels openaiAPIKey) with
      | .error err => { st with c := handleGenerateContentError st.c err }
      | .ok none =>
        { st with c := st.c.JSON StatusNotFound (.H [("error".toList, "Model not found".toList)]) }
      | .ok (some foundModel) =>
        let openaiModel : Model :=
          { ID := foundModel.Name, Object := "model".toList, OwnedBy := "google".toList }
        { st with c := st.c.JSON StatusOK (.model openaiModel) }

/-- Function `setEventStreamHeaders`. -/
def setEventStreamHeaders (c : Context) : Context :=
  let h := c.Writer.header
  let h := setHeader h "Content-Type".toList ["text/event-stream".toList]
  let h := setHeader h "Cache-Control".toList ["no-cache".toList]
  let h := setHeader h "Connection".toList ["keep-alive".toList]
  let h := setHeader h "Transfer-Encoding".toList ["chunked".toList]
  let h := setHeader h "X-Accel-Buffering".toList ["no".toList]
  { c with Writer := { c.Writer with header := h } }

/-- The closure given to `c.Stream` in `ChatProxyHandler`, on the context and
the chunks the relay channel still holds (empty: the channel is closed). -/
def chatStep (s : Context × List GoString) : (Context × List GoString) × Bool :=
  match s.2 with
  | data :: rest => ((s.1.Render ⟨"data: ".toList ++ data⟩, rest), true)
  | [] => ((s.1.Render ⟨"data: [DONE]".toList⟩, []), false)

/-- Function `ChatProxyHandler`; `none` when the streaming loop exceeds `fuel`. -/
def ChatProxyHandler (env : Collaborators) (fuel : Nat) (req : Request) (st : HandlerState) :
    Option HandlerState :=
  match SscanfBearer req.Authorization with
  | .error err => some { st with c := handleGenerateContentError st.c err }
  | .ok openaiAPIKey =>
    match env.ShouldBindChat req.body with
    | .error err => some { st with c := st.c.JSON StatusBadRequest (badRequest err) }
    | .ok r =>
      match env.ChatToGenaiMessages r with
      | .error err => some { st with c := st.c.JSON StatusBadRequest (badRequest err) }
      | .ok messages =>
        let st := { st with newClientCalls := st.newClientCalls ++ [openaiAPIKey] }
        match env.NewClient openaiAPIKey with
        | some err => some { st with c := st.c.JSON StatusBadRequest (badRequest err) }
        | none =>
          let st := { st with closeCalls := st.closeCalls + 1 }
          if !r.Stream then
            match env.GenerateContent openaiAPIKey r messages with
            | .error err => some { st with c := handleGenerateContentError st.c err }
            | .ok resp => some { st with c := st.c.JSON StatusOK (.adapterResponse resp) }
          else
            match env.GenerateStreamContent openaiAPIKey r messages with
            | .error err => some { st with c := handleGenerateContentError st.c err }
            | .ok dataChan =>
              match Stream env.clientGone chatStep fuel 0 (setEventStreamHeaders st.c, dataChan) with
              | none => none
              | some s => some { st with c := s.1 }

/-- Function `EmbeddingProxyHandler`. -/
def EmbeddingProxyHandler (env : Collaborators) (req : Request) (st : HandlerState) :
    HandlerState :=
  match SscanfBearer req.Authorization with
  | .error err => { st with c := handleGenerateContentError st.c err }
  | .ok openaiAPIKey =>
    match env.ShouldBindEmbedding req.body with
    | .error err => { st with c := st.c.JSON StatusBadRequest (badRequest err) }
    | .ok r =>
      match env.EmbeddingToGenaiMessages r with
      | .error err => { st with c := st.c.JSON StatusBadRequest (badRequest err) }
      | .ok messages =>
        let st := { st with newClientCalls := st.newClientCalls ++ [openaiAPIKey] }
        match env.NewClient openaiAPIKey with
        | some err => { st with c := st.c.JSON StatusBadRequest (badRequest err) }
        | none =>
          let st := { st with closeCalls := st.closeCalls + 1 }
          match env.GenerateEmbedding openaiAPIKey r.Model messages with
          | .error err => { st with c := handleGenerateContentError st.c err }
          | .ok resp => { st with c := st.c.JSON StatusOK (.adapterResponse resp) }

/-! ## The SSE encoding as the specification words it -/

/-- The payload `s` with every newline replaced by a newline followed by
`data:` and every carriage return by a backslash and `r`. -/
def specR (s : GoString) : GoString :=
  s.flatMap fun c =>
    if c = '\n' then "\ndata:".toList else if c = '\r' then "\\r".toList else [c]

/-- The terminator: a blank line if `s` begins with `data`, nothing otherwise. -/
def specT (s : GoString) : GoString :=
  if s.take 4 = "data".toList then "\n\n".toList else []

/-- What a replacer writes for one byte. -/
def replaceByte (r : byteStringReplacer) (b : Char) : GoString :=
  (r.replacements b).getD [b]

/-- The frame the chat handler emits for the chunk `p`: the bytes that rendering
`Event{Data: "data: " + p}` writes to an empty response body. -/
def frame (p : GoString) : GoString :=
  ((Context.fresh.Render ⟨"data: ".toList ++ p⟩).Writer).body

/-- The frame that ends a stream. -/
def doneFrame : GoString := "data: [DONE]\n\n".toList

/-- Every newline of `l` is immediately followed by `data:`. -/
def Continued (l : GoString) : Prop :=
  ∀ i : Nat, l[i]? = some '\n' → (l.drop (i + 1)).take 5 = ['d', 'a', 't', 'a', ':']

/-! ## Example errors and bodies -/

/-- The body the handler builds itself: `openai.APIError` with the three
fields set and the others zero. -/
def errorBody (code : Int) (type_ message : GoString) : Body :=
  .apiError
    { Code := .int code, Message := message, Param := none, Type_ := type_, HTTPStatusCode := 0 }

/-- An OpenAI-style error whose `Code` is an `int`. -/
def unauthorizedAPIError : APIError :=
  { Code := .int 401
    Message := "Incorrect API key provided".toList
    Param := none
    Type_ := "invalid_request_error".toList
    HTTPStatusCode := 401 }

/-- An OpenAI-style error as the OpenAI API sends it: `Code` is a string. -/
def stringCodeAPIError : APIError :=
  { Code := .string "invalid_api_key".toList
    Message := "Incorrect API key provided".toList
    Param := none
    Type_ := "invalid_request_error".toList
    HTTPStatusCode := 401 }

/-- An OpenAI-style error without a `Code`. -/
def noCodeAPIError : APIError :=
  { Code := .nil
    Message := "The server is overloaded".toList
    Param := none
    Type_ := "server_error".toList
    HTTPStatusCode := 503 }

/-- The error `stringCodeAPIError`, as the handler receives it. -/
def stringCodeError : GoError :=
  { head := ⟨.openai stringCodeAPIError,
             "error, status code: 401, message: Incorrect API key provided".toList⟩
    wrapped := [] }

/-- The error `noCodeAPIError`, as the handler receives it. -/
def noCodeError : GoError :=
  { head := ⟨.openai noCodeAPIError,
             "error, status code: 503, message: The server is overloaded".toList⟩
    wrapped := [] }

/-- A `*googleapi.Error` with status 429 whose `Unwrap` returns an
`*openai.APIError`. -/
def rateLimitWrappingAPIError : GoError :=
  { head := ⟨.googleapi ⟨429, "Resource has been exhausted".toList⟩,
             "googleapi: Error 429: Resource has been exhausted".toList⟩
    wrapped := [⟨.openai unauthorizedAPIError,
                 "error, status code: 401, message: Incorrect API key provided".toList⟩] }

/-- A `*googleapi.Error` with status 429 wrapped with a message, as
`errors.Wrap` does. -/
def wrappedRateLimit : GoError :=
  { head := ⟨.plain, "genai send message error: googleapi: Error 429: quota".toList⟩
    wrapped := [⟨.googleapi ⟨429, "quota".toList⟩, "googleapi: Error 429: quota".toList⟩] }

/-- A `*googleapi.Error` with status 503. -/
def unavailableError : GoError :=
  { head := ⟨.googleapi ⟨503, "The model is overloaded".toList⟩,
             "googleapi: Error 503: The model is overloaded".toList⟩
    wrapped := [] }

/-- Two models as the backend lists them. -/
def sampleModels : List ModelInfo :=
  [⟨"models/gemini-pro".toList, "Gemini Pro".toList⟩,
   ⟨"models/embedding-001".toList, "Embedding 001".toList⟩]

/-- Collaborators that accept every key and every body, list `sampleModels`
and stream two chunks. -/
def sampleBackend : Collaborators where
  ShouldBindChat := fun _ => .ok ⟨"gemini-pro".toList, true, [("user".toList, "hi".toList)]⟩
  ChatToGenaiMessages := fun r => .ok (r.Messages.map fun m => ⟨m.1, [m.2]⟩)
  ShouldBindEmbedding := fun _ => .ok ⟨"embedding-001".toList, ["hi".toList]⟩
  EmbeddingToGenaiMessages := fun r => .ok (r.Messages.map fun m => ⟨"user".toList, [m]⟩)
  NewClient := fun _ => none
  ListModels := fun _ => sampleModels.map .ok
  GenerateContent := fun _ _ _ => .ok "completion".toList
  GenerateStreamContent := fun _ _ _ => .ok ["a".toList, "b\nc".toList]
  GenerateEmbedding := fun _ _ _ => .ok "embedding".toList
  clientGone := fun _ => false

/-- The response the handler writes for an error of no known shape. -/
def serverErrorState (st : HandlerState) (err : GoError) : HandlerState :=
  { st with
    c := { st.c with
      aborted := true
      responses := st.c.responses ++ [⟨500, errorBody 500 "server_error".toList err.Error⟩] } }

/-! ## Properties of the encoder -/

theorem writeLoop_body (r : byteStringReplacer) (s : GoString) :
    ∀ (w : stringWrapper) (pending : GoString),
      (r.writeLoop w pending s).Writer.body
        = w.Writer.body ++ pending ++ s.flatMap (replaceByte r) := by
  induction s with
  | nil =>
    intro w pending
    by_cases h : pending = [] <;>
      simp [byteStringReplacer.writeLoop, h, stringWrapper.writeString, ResponseWriter.Write]
  | cons b rest ih =>
    intro w pending
    cases hb : r.replacements b with
    | none =>
      simp [byteStringReplacer.writeLoop, hb, ih, replaceByte, List.flatMap_cons]
    | some n =>
      by_cases h : pending = [] <;>
        simp [byteStringReplacer.writeLoop, hb, ih, h, replaceByte, List.flatMap_cons,
          stringWrapper.writeString, ResponseWriter.Write]

theorem writeLoop_header (r : byteStringReplacer) (s : GoString) :
    ∀ (w : stringWrapper) (pending : GoString),
      (r.writeLoop w pending s).Writer.header = w.Writer.header := by
  induction s with
  | nil =>
    intro w pending
    by_cases h : pending = [] <;>
      simp [byteStringReplacer.writeLoop, h, stringWrapper.writeString, ResponseWriter.Write]
  | cons b rest ih =>
    intro w pending
    cases hb : r.replacements b with
    | none => simp [byteStringReplacer.writeLoop, hb, ih]
    | some n =>
      by_cases h : pending = [] <;>
        simp [byteStringReplacer.writeLoop, hb, ih, h, stringWrapper.writeString,
          ResponseWriter.Write]

theorem replaceByte_dataReplacer (c : Char) :
    replaceByte dataReplacer c
      = if c = '\n' then "\ndata:".toList else if c = '\r' then "\\r".toList else [c] := by
  by_cases h1 : c = '\n'
  · simp [replaceByte, dataReplacer, NewReplacer, h1]
  · by_cases h2 : c = '\r'
    · subst h2; simp [replaceByte, dataReplacer, NewReplacer]
    · simp [replaceByte, dataReplacer, NewReplacer, h1, h2]

theorem dataReplacer_flatMap (s : GoString) :
    s.flatMap (replaceByte dataReplacer) = specR s := by
  unfold specR
  congr 1
  funext c
  exact replaceByte_dataReplacer c

theorem hasPrefix_data (s : GoString) :
    HasPrefix s ['d', 'a', 't', 'a'] = true ↔ s.take 4 = "data".toList := by
  unfold HasPrefix
  rw [ List.isPrefixOf_iff_prefix, List.prefix_iff_eq_take]
  constructor
  · intro h; exact h.symm
  · intro h; exact h.symm

theorem ResponseWriter.eq_of (w1 w2 : ResponseWriter) (hh : w1.header = w2.header)
    (hb : w1.body = w2.body) : w1 = w2 := by
  cases w1; cases w2; simp_all

theorem specT_eq (s : GoString) :
    specT s = if HasPrefix s ['d', 'a', 't', 'a'] = true then ['\n', '\n'] else [] := by
  by_cases hp : HasPrefix s ['d', 'a', 't', 'a'] = true
  · rw [if_pos hp, specT, if_pos ((hasPrefix_data s).1 hp)]; rfl
  · rw [if_neg hp, specT, if_neg (fun h => hp ((hasPrefix_data s).2 h))]

theorem encode_eq (w : ResponseWriter) (s : GoString) :
    encode w ⟨s⟩ = ({ w with body := w.body ++ specR s ++ specT s }, none) := by
  have hb := writeLoop_body dataReplacer s (checkWriter w) []
  have hh := writeLoop_header dataReplacer s (checkWriter w) []
  rw [dataReplacer_flatMap] at hb
  simp only [checkWriter, List.append_nil] at hb hh
  simp only [encode, writeData, byteStringReplacer.WriteString, checkWriter, Prod.mk.injEq,
    and_true]
  apply ResponseWriter.eq_of
  · by_cases hp : HasPrefix s ['d', 'a', 't', 'a'] = true <;>
      simp [hp, hh, stringWrapper.writeString, ResponseWriter.Write]
  · rw [specT_eq]
    by_cases hp : HasPrefix s ['d', 'a', 't', 'a'] = true <;>
      simp [hp, hb, stringWrapper.writeString, ResponseWriter.Write]

/-- C1: for every string payload `s` and every writer, `encode` (and `writeData`)
on `Event{Data: s}` appends exactly `R(s)` followed by `T(s)` to what was
written before, leaves the headers alone and returns no error. -/
theorem encode_writes_replaced_payload_then_terminator (w : ResponseWriter) (s : GoString) :
    encode w ⟨s⟩ = ({ w with body := w.body ++ specR s ++ specT s }, none)
    ∧ writeData (checkWriter w) s
        = (⟨{ w with body := w.body ++ specR s ++ specT s }⟩, none) := by
  refine ⟨encode_eq w s, ?_⟩
  have h := encode_eq w s
  simp only [encode, Prod.mk.injEq] at h
  cases hw : writeData (checkWriter w) s with
  | mk a b =>
    rw [hw] at h
    cases a with
    | mk W => simp at h; simp [h.1, h.2]

theorem frame_eq (p : GoString) :
    frame p = "data: ".toList ++ specR p ++ "\n\n".toList := by
  have h := encode_eq (Event.WriteContentType ⟨"data: ".toList ++ p⟩ Context.fresh.Writer)
    ("data: ".toList ++ p)
  have hT : specT ("data: ".toList ++ p) = "\n\n".toList := by
    simp [specT]
  have hR : specR ("data: ".toList ++ p) = "data: ".toList ++ specR p := by
    simp [specR, List.flatMap_cons]
  simp only [frame, Context.Render, Event.Render, h, hT, hR]
  simp [Event.WriteContentType, Context.fresh]

theorem Continued.nil : Continued [] := by
  intro i h; simp at h

theorem Continued.cons_other (c : Char) (l : GoString) (hc : c ≠ '\n') (h : Continued l) :
    Continued (c :: l) := by
  intro i hi
  match i with
  | 0 => simp at hi; exact absurd hi hc
  | i + 1 =>
    simp only [List.getElem?_cons_succ] at hi
    simpa using h i hi

theorem Continued.cons_newline (l : GoString) (h : Continued l) :
    Continued ('\n' :: 'd' :: 'a' :: 't' :: 'a' :: ':' :: l) := by
  intro i hi
  match i with
  | 0 => simp
  | 1 => simp at hi
  | 2 => simp at hi
  | 3 => simp at hi
  | 4 => simp at hi
  | 5 => simp at hi
  | i + 6 =>
    simp only [List.getElem?_cons_succ] at hi
    simpa using h i hi

theorem specR_cons (c : Char) (p : GoString) :
    specR (c :: p)
      = (if c = '\n' then ['\n', 'd', 'a', 't', 'a', ':']
         else if c = '\r' then ['\\', 'r'] else [c]) ++ specR p := by
  simp [specR, List.flatMap_cons]

theorem specR_continued (p : GoString) : Continued (specR p) := by
  induction p with
  | nil => exact Continued.nil
  | cons c p ih =>
    rw [specR_cons]
    by_cases h1 : c = '\n'
    · simp only [h1, if_true]
      exact Continued.cons_newline _ ih
    · by_cases h2 : c = '\r'
      · simp only [h2, if_true]
        exact Continued.cons_other _ _ (by decide) (Continued.cons_other _ _ (by decide) ih)
      · simp only [h1, h2, if_false]
        exact Continued.cons_other _ _ h1 ih

theorem specR_no_cr (p : GoString) : '\r' ∉ specR p := by
  induction p with
  | nil => simp [specR]
  | cons c p ih =>
    rw [specR_cons]
    by_cases h1 : c = '\n'
    · simp [h1, ih]
    · by_cases h2 : c = '\r'
      · simp [h2, ih]
      · simp [h1, h2, ih]
        exact fun h => h2 h.symm

theorem take_drop_append {α : Type} (l m t : List α) (k n : Nat)
    (h : (l.drop k).take n = t) (ht : t.length = n) :
    ((l ++ m).drop k).take n = t := by
  have hlen : n ≤ (l.drop k).length := by
    have := congrArg List.length h
    simp only [List.length_take] at this
    omega
  by_cases hn : n = 0
  · subst hn
    simp at h ⊢
    exact h
  · have hk : k ≤ l.length := by
      simp only [List.length_drop] at hlen
      omega
    rw [List.drop_append_of_le_length hk, List.take_append_of_le_length hlen]
    exact h

theorem getElem?_of_take_drop {α : Type} (l : List α) (i : Nat) (a b : α)
    (h : (l.drop i).take 2 = [a, b]) : l[i]? = some a ∧ l[i + 1]? = some b := by
  have h0 := congrArg (fun t => t[0]?) h
  have h1 := congrArg (fun t => t[1]?) h
  simp [List.getElem?_take, List.getElem?_drop] at h0 h1
  exact ⟨h0, h1⟩

theorem getElem?_of_take_drop_five {α : Type} (l : List α) (i : Nat) (a b c d e : α)
    (h : (l.drop i).take 5 = [a, b, c, d, e]) : l[i]? = some a := by
  have h0 := congrArg (fun t => t[0]?) h
  simp [List.getElem?_take, List.getElem?_drop] at h0
  exact h0

theorem framed_continued (p : GoString) : Continued ("data: ".toList ++ specR p) := by
  have h := specR_continued p
  exact Continued.cons_other _ _ (by decide) (Continued.cons_other _ _ (by decide)
    (Continued.cons_other _ _ (by decide) (Continued.cons_other _ _ (by decide)
    (Continued.cons_other _ _ (by decide) (Continued.cons_other _ _ (by decide) h)))))

theorem blank_line_only_at_end (X : GoString) (hX : Continued X) (i : Nat) :
    ((X ++ ['\n', '\n']).drop i).take 2 = ['\n', '\n'] ↔ i = X.length := by
  constructor
  · intro h
    rcases Nat.lt_trichotomy i X.length with hlt | heq | hgt
    · exfalso
      obtain ⟨h0, h1⟩ := getElem?_of_take_drop _ _ _ _ h
      rw [List.getElem?_append_left hlt] at h0
      have hd := getElem?_of_take_drop_five _ _ _ _ _ _ _ (hX i h0)
      have hlt1 : i + 1 < X.length := by
        rcases List.getElem?_eq_some.1 hd with ⟨hl, _⟩
        exact hl
      rw [List.getElem?_append_left hlt1, hd] at h1
      exact absurd h1 (by decide)
    · exact heq
    · exfalso
      have := congrArg List.length h
      simp at this
      omega
  · intro h
    subst h
    simp

/-- C2: for every chunk `p` the frame emitted by the chat handler is one SSE
event: it starts with `data: `, holds no carriage return, every newline other
than the final two is immediately followed by `data:`, and the blank line
`\n\n` occurs exactly once, as the last two characters; the chunk `\na\nb`
gives `data: \ndata:a\ndata:b\n\n`. -/
theorem frame_is_single_event (p : GoString) :
    (frame p).take 6 = "data: ".toList
    ∧ '\r' ∉ frame p
    ∧ (∀ i : Nat, i + 2 < (frame p).length → (frame p)[i]? = some '\n' →
        ((frame p).drop (i + 1)).take 5 = "data:".toList)
    ∧ (∀ i : Nat, ((frame p).drop i).take 2 = "\n\n".toList ↔ i + 2 = (frame p).length)
    ∧ frame "\na\nb".toList = "data: \ndata:a\ndata:b\n\n".toList := by
  have hX := framed_continued p
  have hf : frame p = ("data: ".toList ++ specR p) ++ ['\n', '\n'] := frame_eq p
  refine ⟨?_, ?_, ?_, ?_, by decide⟩
  · rw [frame_eq]; simp
  · rw [frame_eq]
    have := specR_no_cr p
    simp [this]
  · intro i hi hn
    rw [hf] at hi hn ⊢
    have hlt : i < ("data: ".toList ++ specR p).length := by
      simp only [List.length_append, List.length_cons, List.length_nil] at hi ⊢
      omega
    rw [List.getElem?_append_left hlt] at hn
    exact take_drop_append _ _ _ _ _ (hX i hn) rfl
  · intro i
    rw [hf]
    rw [show "\n\n".toList = ['\n', '\n'] from rfl, blank_line_only_at_end _ hX i]
    simp only [List.length_append, List.length_cons, List.length_nil]
    omega

theorem render_body (c : Context) (p : GoString) :
    (c.Render ⟨"data: ".toList ++ p⟩).Writer.body = c.Writer.body ++ frame p := by
  have h := encode_eq (Event.WriteContentType ⟨"data: ".toList ++ p⟩ c.Writer)
    ("data: ".toList ++ p)
  have hT : specT ("data: ".toList ++ p) = "\n\n".toList := by
    simp [specT]
  have hR : specR ("data: ".toList ++ p) = "data: ".toList ++ specR p := by
    simp [specR, List.flatMap_cons]
  rw [frame_eq]
  simp only [Context.Render, Event.Render, h, hT, hR]
  simp [Event.WriteContentType]

theorem render_responses (c : Context) (e : Event) :
    (c.Render e).responses = c.responses ∧ (c.Render e).aborted = c.aborted := by
  simp [Context.Render]

theorem frame_done : frame "[DONE]".toList = doneFrame := by decide

theorem stream_chatStep (clientGone : Nat → Bool) (hgone : ∀ k, clientGone k = false)
    (chunks : List GoString) :
    ∀ (c : Context) (fuel k : Nat), chunks.length < fuel →
      ∃ c1 : Context,
        Stream clientGone chatStep fuel k (c, chunks) = some (c1, [])
        ∧ c1.Writer.body = c.Writer.body ++ (chunks.map frame).flatten ++ doneFrame
        ∧ c1.responses = c.responses := by
  induction chunks with
  | nil =>
    intro c fuel k hf
    match fuel, hf with
    | fuel + 1, _ =>
      refine ⟨c.Render ⟨"data: [DONE]".toList⟩, ?_, ?_, ?_⟩
      · simp [Stream, hgone, chatStep]
      · have := render_body c "[DONE]".toList
        rw [frame_done] at this
        simpa using this
      · exact (render_responses c _).1
  | cons data rest ih =>
    intro c fuel k hf
    match fuel, hf with
    | fuel + 1, hf =>
      have hlt : rest.length < fuel := by
        simp only [List.length_cons] at hf
        omega
      obtain ⟨c1, h1, h2, h3⟩ := ih (c.Render ⟨"data: ".toList ++ data⟩) fuel (k + 1) hlt
      refine ⟨c1, ?_, ?_, ?_⟩
      · simpa [Stream, hgone, chatStep] using h1
      · rw [h2, render_body]
        simp [List.append_assoc]
      · rw [h3]
        exact (render_responses c _).1

/-- C3: when the client does not disconnect, for every sequence of chunks the
relay channel delivers before it is closed and every iteration bound above
their number, the streaming loop of `ChatProxyHandler` ends, with the channel
drained, and has appended to the response body exactly the frames of the
chunks, in the order received, followed by the one frame `data: [DONE]\n\n`;
no JSON response is written. -/
theorem streaming_loop_writes_frames_then_done (clientGone : Nat → Bool)
    (hgone : ∀ k, clientGone k = false) (chunks : List GoString) (c : Context)
    (fuel : Nat) (hfuel : chunks.length < fuel) :
    ∃ c1 : Context,
      Stream clientGone chatStep fuel 0 (c, chunks) = some (c1, [])
      ∧ c1.Writer.body
          = c.Writer.body ++ (chunks.map frame).flatten ++ "data: [DONE]\n\n".toList
      ∧ c1.responses = c.responses :=
  stream_chatStep clientGone hgone chunks c fuel 0 hfuel

/-- Two chunks, the second with an embedded newline, and the bound 3. -/
theorem streaming_loop_witness :
    (∀ k, (fun _ : Nat => false) k = false)
    ∧ ["a".toList, "b\nc".toList].length < 3
    ∧ ∃ c1 : Context,
        Stream (fun _ => false) chatStep 3 0 (Context.fresh, ["a".toList, "b\nc".toList])
          = some (c1, [])
        ∧ c1.Writer.body
            = Context.fresh.Writer.body ++ (["a".toList, "b\nc".toList].map frame).flatten
                ++ "data: [DONE]\n\n".toList
        ∧ c1.responses = Context.fresh.responses :=
  ⟨fun _ => rfl, by decide,
    streaming_loop_writes_frames_then_done (fun _ => false) (fun _ => rfl)
      ["a".toList, "b\nc".toList] Context.fresh 3 (by decide)⟩

/-! ## Properties of the error normaliser -/

/-- C4, as stated, fails: a `googleapi.Error` with status 429 that wraps an
OpenAI-style error is answered with that error and its status 401, not with
the rate-limit body. -/
theorem rate_limit_claim_counterexample :
    rateLimitWrappingAPIError.head.shape
        = .googleapi ⟨429, "Resource has been exhausted".toList⟩
    ∧ (handleGenerateContentError Context.fresh rateLimitWrappingAPIError).responses
        = [⟨401, .apiError unauthorizedAPIError⟩]
    ∧ (handleGenerateContentError Context.fresh rateLimitWrappingAPIError).responses
        ≠ [⟨429, errorBody 429 "rate_limit_error".toList "Rate limit exceeded".toList⟩] := by
  decide

/-- C4, amended: for every error whose chain holds no OpenAI-style error and
whose first `googleapi.Error` has status 429, whatever its message, the
handler aborts and writes one response, with status 429 and the body
code 429, type `rate_limit_error`, message `Rate limit exceeded`. -/
theorem rate_limit_normalised (c : Context) (err : GoError) (g : GoogleapiError)
    (hopenai : asAPIError err.chain = none)
    (hgoogle : asGoogleapiError err.chain = some g)
    (hcode : g.Code = 429) :
    handleGenerateContentError c err
      = { c with
          aborted := true
          responses := c.responses
            ++ [⟨429, errorBody 429 "rate_limit_error".toList "Rate limit exceeded".toList⟩] } := by
  simp [handleGenerateContentError, hopenai, hgoogle, hcode, StatusTooManyRequests,
    Context.AbortWithStatusJSON, Context.JSON, errorBody]

/-- A rate-limit error wrapped with a message. -/
theorem rate_limit_normalised_witness :
    asAPIError wrappedRateLimit.chain = none
    ∧ asGoogleapiError wrappedRateLimit.chain = some ⟨429, "quota".toList⟩
    ∧ handleGenerateContentError Context.fresh wrappedRateLimit
      = { Context.fresh with
          aborted := true
          responses := Context.fresh.responses
            ++ [⟨429, errorBody 429 "rate_limit_error".toList "Rate limit exceeded".toList⟩] } :=
  ⟨rfl, rfl, rate_limit_normalised Context.fresh wrappedRateLimit ⟨429, "quota".toList⟩ rfl rfl rfl⟩

/-- C5: for every error whose chain holds no OpenAI-style error and whose first
`googleapi.Error` has a status `s` other than 429 and the message `m`, the
handler aborts and writes one response, with status `s` and the body code `s`,
type `server_error`, message `m`. -/
theorem backend_error_normalised (c : Context) (err : GoError) (g : GoogleapiError)
    (hopenai : asAPIError err.chain = none)
    (hgoogle : asGoogleapiError err.chain = some g)
    (hcode : g.Code ≠ 429) :
    handleGenerateContentError c err
      = { c with
          aborted := true
          responses := c.responses
            ++ [⟨g.Code, errorBody g.Code "server_error".toList g.Message⟩] } := by
  simp [handleGenerateContentError, hopenai, hgoogle, hcode, StatusTooManyRequests,
    Context.AbortWithStatusJSON, Context.JSON, errorBody]

/-- A backend error with status 503. -/
theorem backend_error_normalised_witness :
    asAPIError unavailableError.chain = none
    ∧ asGoogleapiError unavailableError.chain = some ⟨503, "The model is overloaded".toList⟩
    ∧ handleGenerateContentError Context.fresh unavailableError
      = { Context.fresh with
          aborted := true
          responses := Context.fresh.responses
            ++ [⟨503, errorBody 503 "server_error".toList "The model is overloaded".toList⟩] } :=
  ⟨rfl, rfl,
    backend_error_normalised Context.fresh unavailableError
      ⟨503, "The model is overloaded".toList⟩ rfl rfl (by decide)⟩

/-- C6: for every error whose chain holds neither an OpenAI-style error nor a
`googleapi.Error`, the handler aborts and writes one response, with status 500
and the body code 500, type `server_error`, message the error's `Error()`. -/
theorem unknown_error_normalised (c : Context) (err : GoError)
    (hopenai : asAPIError err.chain = none)
    (hgoogle : asGoogleapiError err.chain = none) :
    handleGenerateContentError c err
      = { c with
          aborted := true
          responses := c.responses
            ++ [⟨500, errorBody 500 "server_error".toList err.Error⟩] } := by
  simp [handleGenerateContentError, hopenai, hgoogle, StatusInternalServerError,
    Context.AbortWithStatusJSON, Context.JSON, errorBody]

/-- An error made by `errors.New`. -/
theorem unknown_error_normalised_witness :
    asAPIError (errorsNew "connection reset".toList).chain = none
    ∧ asGoogleapiError (errorsNew "connection reset".toList).chain = none
    ∧ handleGenerateContentError Context.fresh (errorsNew "connection reset".toList)
      = { Context.fresh with
          aborted := true
          responses := Context.fresh.responses
            ++ [⟨500, errorBody 500 "server_error".toList
                  (errorsNew "connection reset".toList).Error⟩] } :=
  ⟨rfl, rfl, unknown_error_normalised Context.fresh (errorsNew "connection reset".toList) rfl rfl⟩

/-- C7, as stated, fails: for an OpenAI-style error whose `Code` is the string
`invalid_api_key` (and whose HTTP status code is 401) the response has status
500, which is neither the error's `Code` nor its HTTP status code. -/
theorem passthrough_status_counterexample :
    asAPIError stringCodeError.chain = some stringCodeAPIError
    ∧ (handleGenerateContentError Context.fresh stringCodeError).responses
        = [⟨500, .apiError stringCodeAPIError⟩]
    ∧ stringCodeAPIError.Code ≠ .int 500
    ∧ stringCodeAPIError.HTTPStatusCode ≠ 500 := by
  decide

/-- C7, amended: for every error whose chain holds an OpenAI-style error, `e`
being the first one, the handler aborts and writes one response whose body is
`e` unchanged and whose status is `e.Code` when that is an `int` and 500
otherwise; a `googleapi.Error` in the chain, with status 429 or another, does
not change this. -/
theorem openai_error_passed_through (c : Context) (err : GoError) (e : APIError)
    (hopenai : asAPIError err.chain = some e) :
    handleGenerateContentError c err
      = { c with
          aborted := true
          responses := c.responses
            ++ [⟨(match e.Code with
                  | .int code => code
                  | _ => 500), .apiError e⟩] } := by
  simp only [handleGenerateContentError, hopenai, StatusInternalServerError,
    Context.AbortWithStatusJSON, Context.JSON]

/-- An OpenAI-style error under a `googleapi.Error` with status 429. -/
theorem openai_error_passed_through_witness :
    asAPIError rateLimitWrappingAPIError.chain = some unauthorizedAPIError
    ∧ asGoogleapiError rateLimitWrappingAPIError.chain
        = some ⟨429, "Resource has been exhausted".toList⟩
    ∧ handleGenerateContentError Context.fresh rateLimitWrappingAPIError
      = { Context.fresh with
          aborted := true
          responses := Context.fresh.responses
            ++ [⟨(match unauthorizedAPIError.Code with
                  | .int code => code
                  | _ => 500), .apiError unauthorizedAPIError⟩] } :=
  ⟨rfl, rfl,
    openai_error_passed_through Context.fresh rateLimitWrappingAPIError unauthorizedAPIError rfl⟩

/-- C8, as stated, fails: for an OpenAI-style error without a `Code` the one
response has status 500 and a body that is no error body with the integer 500
in its code field. -/
theorem status_matches_code_counterexample :
    (handleGenerateContentError Context.fresh noCodeError).responses
        = [⟨500, .apiError noCodeAPIError⟩]
    ∧ ¬ ∃ (r : Response) (b : APIError),
        (handleGenerateContentError Context.fresh noCodeError).responses
          = [r]
        ∧ r.body = .apiError b ∧ b.Code = .int r.status := by
  refine ⟨by decide, ?_⟩
  rintro ⟨r, b, h1, h2, h3⟩
  have h : (handleGenerateContentError Context.fresh noCodeError).responses
      = [⟨500, .apiError noCodeAPIError⟩] := by decide
  rw [h] at h1
  simp only [List.cons.injEq, and_true] at h1
  subst h1
  simp only [Body.apiError.injEq] at h2
  subst h2
  exact absurd h3 (by decide)

/-- C8, amended: for every error value the handler aborts and writes exactly
one response, whose body is an error body.  The status equals the integer in
the code field of the body whenever the first OpenAI-style error of the chain,
if there is one, has an `int` as its `Code`; when its `Code` is not an `int`,
the status is 500 and the body is that error unchanged. -/
theorem one_response_status_matches_code (c : Context) (err : GoError) :
    ∃ (r : Response) (b : APIError),
      handleGenerateContentError c err
        = { c with aborted := true, responses := c.responses ++ [r] }
      ∧ r.body = .apiError b
      ∧ ((∀ e, asAPIError err.chain = some e → ∃ n, e.Code = .int n) → b.Code = .int r.status)
      ∧ (∀ e, asAPIError err.chain = some e → (∀ n, e.Code ≠ .int n) →
          r.status = 500 ∧ b = e) := by
  cases ho : asAPIError err.chain with
  | some e =>
    refine ⟨⟨(match e.Code with
              | .int code => code
              | _ => 500), .apiError e⟩, e, ?_, rfl, ?_, ?_⟩
    · simp only [handleGenerateContentError, ho, StatusInternalServerError,
        Context.AbortWithStatusJSON, Context.JSON]
    · intro h
      obtain ⟨n, hn⟩ := h e rfl
      simp [hn]
    · intro e1 he1 hn
      simp only [Option.some.injEq] at he1
      subst he1
      refine ⟨?_, rfl⟩
      cases hc : e.Code with
      | int n => exact absurd hc (hn n)
      | nil => rfl
      | string t => rfl
  | none =>
    cases hg : asGoogleapiError err.chain with
    | some g =>
      by_cases hc : g.Code = 429
      · refine ⟨⟨429, errorBody 429 "rate_limit_error".toList "Rate limit exceeded".toList⟩, _,
          ?_, rfl, fun _ => rfl, fun e he => by simp at he⟩
        simp [handleGenerateContentError, ho, hg, hc, StatusTooManyRequests,
          Context.AbortWithStatusJSON, Context.JSON, errorBody]
      · refine ⟨⟨g.Code, errorBody g.Code "server_error".toList g.Message⟩, _,
          ?_, rfl, fun _ => rfl, fun e he => by simp at he⟩
        simp [handleGenerateContentError, ho, hg, hc, StatusTooManyRequests,
          Context.AbortWithStatusJSON, Context.JSON, errorBody]
    | none =>
      refine ⟨⟨500, errorBody 500 "server_error".toList err.Error⟩, _, ?_, rfl, fun _ => rfl,
        fun e he => by simp at he⟩
      simp [handleGenerateContentError, ho, hg, StatusInternalServerError,
        Context.AbortWithStatusJSON, Context.JSON, errorBody]

/-- A backend error with status 503. -/
theorem one_response_status_matches_code_witness :
    ∃ (r : Response) (b : APIError),
      handleGenerateContentError Context.fresh unavailableError
        = { Context.fresh with
            aborted := true, responses := Context.fresh.responses ++ [r] }
      ∧ r.body = .apiError b
      ∧ ((∀ e, asAPIError unavailableError.chain = some e → ∃ n, e.Code = .int n) →
          b.Code = .int r.status)
      ∧ (∀ e, asAPIError unavailableError.chain = some e → (∀ n, e.Code ≠ .int n) →
          r.status = 500 ∧ b = e) :=
  one_response_status_matches_code Context.fresh unavailableError

/-! ## Properties of the handlers -/

theorem scanLiteral_error (f : GoString) :
    ∀ (input : GoString) (err : GoError), scanLiteral f input = .error err →
      ∃ text, err = errorsNew text := by
  induction f with
  | nil => intro input err h; simp [scanLiteral] at h
  | cons a f ih =>
    intro input err h
    cases input with
    | nil =>
      simp only [scanLiteral, Except.error.injEq] at h
      exact ⟨_, h.symm⟩
    | cons b input =>
      simp only [scanLiteral] at h
      by_cases hab : a = b
      · rw [if_pos hab] at h
        exact ih input err h
      · rw [if_neg hab] at h
        simp only [Except.error.injEq] at h
        exact ⟨_, h.symm⟩

theorem scanFormatSpace_error (input : GoString) (err : GoError)
    (h : scanFormatSpace input = .error err) : ∃ text, err = errorsNew text := by
  cases input with
  | nil => simp [scanFormatSpace] at h
  | cons c cs =>
    simp only [scanFormatSpace] at h
    split at h
    · simp only [Except.error.injEq] at h
      exact ⟨_, h.symm⟩
    · split at h
      · simp only [Except.error.injEq] at h
        exact ⟨_, h.symm⟩
      · simp at h

theorem SkipSpace_error (input : GoString) :
    ∀ err : GoError, SkipSpace input = .error err → ∃ text, err = errorsNew text := by
  induction input with
  | nil => intro err h; simp [SkipSpace] at h
  | cons r rest ih =>
    intro err h
    simp only [SkipSpace] at h
    split at h
    · exact ih err h
    · split at h
      · simp only [Except.error.injEq] at h
        exact ⟨_, h.symm⟩
      · split at h
        · simp at h
        · exact ih err h

theorem scanString_error (input : GoString) (err : GoError)
    (h : scanString input = .error err) : ∃ text, err = errorsNew text := by
  unfold scanString at h
  split at h
  · next e he =>
    simp only [Except.error.injEq] at h
    subst h
    exact SkipSpace_error _ _ he
  · next rest _ =>
    split at h
    · next e he =>
      simp only [Except.error.injEq] at h
      subst h
      exact SkipSpace_error _ _ he
    · simp only [Except.error.injEq] at h
      exact ⟨_, h.symm⟩
    · simp at h

theorem SscanfBearer_error (header : GoString) (err : GoError)
    (h : SscanfBearer header = .error err) : ∃ text, err = errorsNew text := by
  unfold SscanfBearer at h
  split at h
  · next e he =>
    simp only [Except.error.injEq] at h
    subst h
    exact scanLiteral_error _ _ _ he
  · next rest _ =>
    split at h
    · next e he =>
      simp only [Except.error.injEq] at h
      subst h
      exact scanFormatSpace_error _ _ he
    · exact scanString_error _ _ h

theorem handle_scan_error (c : Context) (header : GoString) (err : GoError)
    (h : SscanfBearer header = .error err) :
    handleGenerateContentError c err
      = { c with
          aborted := true
          responses := c.responses
            ++ [⟨500, errorBody 500 "server_error".toList err.Error⟩] } := by
  obtain ⟨text, rfl⟩ := SscanfBearer_error header err h
  simp [handleGenerateContentError, errorsNew, GoError.chain, asAPIError, asGoogleapiError,
    StatusInternalServerError, Context.AbortWithStatusJSON, Context.JSON, errorBody]

/-- C9 on the code: whenever `fmt.Sscanf` rejects the `Authorization` header,
each of the four handlers answers with status 500 and the `server_error` body
carrying the scan error, not with status 400; `genai.NewClient` is not called. -/
theorem rejected_credential_answered_with_500 (env : Collaborators) (fuel : Nat)
    (req : Request) (st : HandlerState) (err : GoError)
    (h : SscanfBearer req.Authorization = .error err) :
    ModelListHandler env req st = serverErrorState st err
    ∧ ModelRetrieveHandler env req st = serverErrorState st err
    ∧ ChatProxyHandler env fuel req st = some (serverErrorState st err)
    ∧ EmbeddingProxyHandler env req st = serverErrorState st err
    ∧ (serverErrorState st err).newClientCalls = st.newClientCalls := by
  have hc := handle_scan_error st.c req.Authorization err h
  refine ⟨?_, ?_, ?_, ?_, rfl⟩
  · simp only [ModelListHandler, h, hc, serverErrorState]
  · simp only [ModelRetrieveHandler, h, hc, serverErrorState]
  · simp only [ChatProxyHandler, h, hc, serverErrorState]
  · simp only [EmbeddingProxyHandler, h, hc, serverErrorState]

/-- A request without an `Authorization` header. -/
theorem rejected_credential_witness :
    SscanfBearer (Request.mk [] [] []).Authorization = .error (errorsNew "unexpected EOF".toList)
    ∧ (ModelListHandler sampleBackend ⟨[], [], []⟩ HandlerState.fresh
        = serverErrorState HandlerState.fresh (errorsNew "unexpected EOF".toList)
      ∧ ModelRetrieveHandler sampleBackend ⟨[], [], []⟩ HandlerState.fresh
        = serverErrorState HandlerState.fresh (errorsNew "unexpected EOF".toList)
      ∧ ChatProxyHandler sampleBackend 0 ⟨[], [], []⟩ HandlerState.fresh
        = some (serverErrorState HandlerState.fresh (errorsNew "unexpected EOF".toList))
      ∧ EmbeddingProxyHandler sampleBackend ⟨[], [], []⟩ HandlerState.fresh
        = serverErrorState HandlerState.fresh (errorsNew "unexpected EOF".toList)
      ∧ (serverErrorState HandlerState.fresh (errorsNew "unexpected EOF".toList)).newClientCalls
        = HandlerState.fresh.newClientCalls) :=
  ⟨rfl, rejected_credential_answered_with_500 sampleBackend 0 ⟨[], [], []⟩ HandlerState.fresh
    (errorsNew "unexpected EOF".toList) rfl⟩

theorem setEventStreamHeaders_body (c : Context) :
    (setEventStreamHeaders c).Writer.body = c.Writer.body
    ∧ (setEventStreamHeaders c).responses = c.responses := by
  simp [setEventStreamHeaders]

theorem chat_handler_streams (env : Collaborators) (fuel : Nat) (req : Request)
    (st : HandlerState) (key : GoString) (r : ChatCompletionRequest)
    (messages : List Content) (chunks : List GoString)
    (hkey : SscanfBearer req.Authorization = .ok key)
    (hbind : env.ShouldBindChat req.body = .ok r)
    (hmsgs : env.ChatToGenaiMessages r = .ok messages)
    (hclient : env.NewClient key = none)
    (hstream : r.Stream = true)
    (hgen : env.GenerateStreamContent key r messages = .ok chunks)
    (hgone : ∀ k, env.clientGone k = false)
    (hfuel : chunks.length < fuel) :
    ∃ st1 : HandlerState,
      ChatProxyHandler env fuel req st = some st1
      ∧ st1.c.Writer.body
          = st.c.Writer.body ++ (chunks.map frame).flatten ++ doneFrame
      ∧ st1.c.responses = st.c.responses
      ∧ st1.newClientCalls = st.newClientCalls ++ [key]
      ∧ st1.closeCalls = st.closeCalls + 1 := by
  obtain ⟨c1, h1, h2, h3⟩ :=
    stream_chatStep env.clientGone hgone chunks (setEventStreamHeaders st.c) fuel 0 hfuel
  refine ⟨{ st with
            c := c1
            newClientCalls := st.newClientCalls ++ [key]
            closeCalls := st.closeCalls + 1 }, ?_, ?_, ?_, rfl, rfl⟩
  · simp only [ChatProxyHandler, hkey, hbind, hmsgs, hclient, hstream, hgen, h1]
    simp
  · simpa [(setEventStreamHeaders_body st.c).1] using h2
  · simpa [(setEventStreamHeaders_body st.c).2] using h3

theorem modelFindLoop_ok (modelID : GoString) (L : List ModelInfo) :
    modelFindLoop modelID (L.map .ok) = .ok (L.find? fun m => m.Name = modelID) := by
  induction L with
  | nil => simp [modelFindLoop]
  | cons m L ih =>
    by_cases hm : m.Name = modelID
    · simp [modelFindLoop, hm]
    · simp [modelFindLoop, hm, ih]

/-- C10: when the credential is accepted, the client is created and the backend
lists the models `L` without error, `ModelRetrieveHandler` writes one
response: status 404 with the body `error: Model not found` if and only if no
entry of `L` has the requested id as its name, and otherwise status 200 with
the model object of the requested id, `object: model`, `owned_by: google`. -/
theorem model_retrieve_found_or_404 (env : Collaborators) (req : Request) (st : HandlerState)
    (key : GoString) (L : List ModelInfo)
    (hkey : SscanfBearer req.Authorization = .ok key)
    (hclient : env.NewClient key = none)
    (hlist : env.ListModels key = L.map .ok) :
    ((ModelRetrieveHandler env req st).c.responses
        = st.c.responses ++ [⟨404, .H [("error".toList, "Model not found".toList)]⟩]
      ↔ ∀ m ∈ L, m.Name ≠ req.model)
    ∧ ((∃ m ∈ L, m.Name = req.model) →
        (ModelRetrieveHandler env req st).c.responses
          = st.c.responses
            ++ [⟨200, .model ⟨req.model, "model".toList, "google".toList⟩⟩]) := by
  have hloop := modelFindLoop_ok req.model L
  cases hf : L.find? (fun m => m.Name = req.model) with
  | none =>
    have hnone : ∀ m ∈ L, m.Name ≠ req.model := by
      intro m hm
      have := List.find?_eq_none.1 hf m hm
      simpa using this
    have hresp : (ModelRetrieveHandler env req st).c.responses
        = st.c.responses ++ [⟨404, .H [("error".toList, "Model not found".toList)]⟩] := by
      simp only [ModelRetrieveHandler, hkey, hclient, hlist, hloop, hf, Context.JSON,
        StatusNotFound]
    refine ⟨⟨fun _ => hnone, fun _ => hresp⟩, ?_⟩
    rintro ⟨m, hm, hname⟩
    exact absurd hname (hnone m hm)
  | some found =>
    have hname : found.Name = req.model := by
      have := List.find?_some hf
      simpa using this
    have hmem : found ∈ L := List.mem_of_find?_eq_some hf
    have hresp : (ModelRetrieveHandler env req st).c.responses
        = st.c.responses
          ++ [⟨200, .model ⟨req.model, "model".toList, "google".toList⟩⟩] := by
      simp only [ModelRetrieveHandler, hkey, hclient, hlist, hloop, hf, Context.JSON,
        StatusOK, hname]
    refine ⟨⟨fun h => ?_, fun h => absurd hname (h found hmem)⟩, fun _ => hresp⟩
    rw [hresp] at h
    simp at h

/-- A listed model requested with the key `k`. -/
theorem model_retrieve_witness :
    SscanfBearer (Request.mk "Bearer k".toList "models/gemini-pro".toList []).Authorization
        = .ok "k".toList
    ∧ sampleBackend.NewClient "k".toList = none
    ∧ sampleBackend.ListModels "k".toList = sampleModels.map .ok
    ∧ (((ModelRetrieveHandler sampleBackend ⟨"Bearer k".toList, "models/gemini-pro".toList, []⟩
            HandlerState.fresh).c.responses
          = HandlerState.fresh.c.responses
            ++ [⟨404, .H [("error".toList, "Model not found".toList)]⟩]
        ↔ ∀ m ∈ sampleModels,
            m.Name ≠ (Request.mk "Bearer k".toList "models/gemini-pro".toList []).model)
      ∧ ((∃ m ∈ sampleModels,
            m.Name = (Request.mk "Bearer k".toList "models/gemini-pro".toList []).model) →
          (ModelRetrieveHandler sampleBackend ⟨"Bearer k".toList, "models/gemini-pro".toList, []⟩
            HandlerState.fresh).c.responses
          = HandlerState.fresh.c.responses
            ++ [⟨200, .model ⟨(Request.mk "Bearer k".toList "models/gemini-pro".toList []).model,
                  "model".toList, "google".toList⟩⟩])) :=
  ⟨rfl, rfl, rfl,
    model_retrieve_found_or_404 sampleBackend ⟨"Bearer k".toList, "models/gemini-pro".toList, []⟩
      HandlerState.fresh "k".toList sampleModels rfl rfl rfl⟩

end GeminiProxy
